import Mathlib

/-!
Verification development for the `tpl` repository's rendering engine
(`renderer.go`). The Go code is shallowly embedded: pure helpers become
Lean functions, the filesystem becomes an explicit map from paths to
nodes, and the traversal threads an explicit observable state (opened
paths, created directories, output file contents, render units, standard
output). Machine-level concerns (bytes vs characters) are modelled on
UTF-8 text, where Go's byte-wise string order and operations coincide
with the character-wise ones used here.
-/

/-! ## String and path helpers (models of Go `strings`, `path`, `path/filepath`) -/

/-- Splits a character list on the separator, keeping empty segments,
mirroring Go `strings.Split(s, "/")`. -/
def splitSlash : List Char → List (List Char)
  | [] => [[]]
  | c :: rest =>
    let r := splitSlash rest
    if c = '/' then [] :: r
    else
      match r with
      | [] => [[c]]
      | seg :: segs => (c :: seg) :: segs

/-- Processes split path components the way Go `path.Clean` does: empty and
dot components are dropped and a dot-dot component pops the previous
component (at the root it is discarded; in a relative path it is kept when
nothing remains to pop). The accumulator holds retained components in
reverse order. -/
def cleanSegs (rooted : Bool) : List (List Char) → List (List Char) → List (List Char)
  | acc, [] => acc.reverse
  | acc, c :: cs =>
    if c = [] ∨ c = ['.'] then cleanSegs rooted acc cs
    else if c = ['.', '.'] then
      match acc with
      | [] => if rooted then cleanSegs rooted [] cs else cleanSegs rooted [c] cs
      | a :: rest =>
        if a = ['.', '.'] then cleanSegs rooted (c :: acc) cs
        else cleanSegs rooted rest cs
    else cleanSegs rooted (c :: acc) cs

/-- Joins path components back together with separators. -/
def joinSegs : List (List Char) → List Char
  | [] => []
  | [s] => s
  | s :: t :: rest => s ++ '/' :: joinSegs (t :: rest)

/-- Whether the path is absolute (starts with the separator). -/
def isRootedChars : List Char → Bool
  | '/' :: _ => true
  | _ => false

/-- The cleaned components of a path, joined back together. -/
def cleanBody (rooted : Bool) (cs : List Char) : List Char :=
  joinSegs (cleanSegs rooted [] (splitSlash cs))

/-- Model of Go `path.Clean` (equal to `filepath.Clean` on slash-separated
paths): the empty path cleans to a dot, repeated separators and dot
components are elided, and dot-dot components are resolved lexically. -/
def cleanPath (p : String) : String :=
  if p = "" then "."
  else if isRootedChars p.data then String.mk ('/' :: cleanBody true p.data)
  else if cleanBody false p.data = [] then "."
  else String.mk (cleanBody false p.data)

/-- Model of Go `filepath.Join(a, b)` on Unix path syntax: empty elements
are skipped and the slash-joined result is cleaned; joining two empty
strings yields the empty string. -/
def joinPath (a b : String) : String :=
  if a = "" ∧ b = "" then ""
  else if a = "" then cleanPath b
  else if b = "" then cleanPath a
  else cleanPath (a ++ "/" ++ b)

/-- Model of Go `path.Base` (equal to `filepath.Base` on Unix): trailing
separators are stripped, then everything up to the final separator is
dropped; the empty path gives a dot and an all-separator path gives the
separator. -/
def basePath (p : String) : String :=
  if p = "" then "."
  else
    let cs := p.data.reverse.dropWhile (fun c => c = '/')
    if cs = [] then "/"
    else String.mk (cs.takeWhile (fun c => c ≠ '/')).reverse

/-- Model of Go `path.Dir`: everything up to the final separator, cleaned;
a path without separators has directory dot. -/
def dirPath (p : String) : String :=
  cleanPath (String.mk (p.data.reverse.dropWhile (fun c => c ≠ '/')).reverse)

/-- Model of Go `strings.HasSuffix` (byte suffix and character suffix agree
on UTF-8 text). -/
def hasSuffix (s suffix : String) : Bool :=
  suffix.data.isSuffixOf s.data

/-- Model of Go `strings.TrimSuffix`. -/
def trimSuffix (s suffix : String) : String :=
  if hasSuffix s suffix then String.mk (s.data.take (s.data.length - suffix.data.length))
  else s

/-- Bool-valued check that `needle` occurs contiguously inside the second
list. -/
def subList (needle : List Char) : List Char → Bool
  | [] => needle.isEmpty
  | c :: rest => needle.isPrefixOf (c :: rest) || subList needle rest

/-- Model of Go `strings.Contains`. -/
def strContains (s sub : String) : Bool :=
  subList sub.data s.data

/-- Model of Go `strings.Join(l, ", ")`, as used in error messages and
logging. -/
def joinComma : List String → String
  | [] => ""
  | [s] => s
  | s :: t :: rest => s ++ ", " ++ joinComma (t :: rest)

/-- Modelled from the spec: the repository's `stringSorter` (the
`sort.Interface` implementation over `[]string` used at renderer.go line
65-69) is not among the provided source files; the spec states that the
generated child paths are sorted lexicographically, modelled here as an
insertion sort by the lexicographic order on strings. -/
def sortStrings (l : List String) : List String :=
  List.insertionSort (fun a b => a ≤ b) l

/-! ## Template model (model of `text/template` as exercised by the code) -/

/-- Template abstract syntax: the model of a parsed `text/template` body
restricted to the constructs the specification exercises: literal text, a
field reference, and invocation of a named template. Helper functions
(`FuncMap`) fall outside these constructs and are not modelled. -/
inductive Node
  | text (s : String)
  | field (key : String)
  | invoke (name : String)

/-- A template body is a sequence of nodes. -/
abbrev Tpl := List Node

/-- A parsed template file: the file's top-level body plus its named
define-blocks in source order. Go `ParseFiles` registers the top-level body
under the file's base name. -/
structure TemplateFile where
  top : Tpl
  defs : List (String × Tpl)

/-- The value map, restricted to string values (the shape the claims
exercise; Go uses a string-keyed map of arbitrary values). -/
abbrev Values := List (String × String)

/-- First-match association lookup (Go map lookup; map keys are unique, so
the first match is the match). -/
def lookupVal (m : List (String × String)) (k : String) : Option String :=
  match m with
  | [] => none
  | (a, v) :: rest => if a = k then some v else lookupVal rest k

/-- Lookup in the template namespace. Later definitions override earlier
ones (Go `Parse` semantics), so the last binding of a name wins. -/
def lookupDef (ds : List (String × Tpl)) (n : String) : Option Tpl :=
  match ds with
  | [] => none
  | (m, b) :: rest =>
    match lookupDef rest n with
    | some r => some r
    | none => if m = n then some b else none

/-- The definitions one parsed file contributes: its top-level body under
its base name, followed by its define-blocks. -/
def fileDefs (fname : String) (tf : TemplateFile) : List (String × Tpl) :=
  (basePath fname, tf.top) :: tf.defs

/-- Source of template files as seen by `ParseFiles`: a path maps to
nothing (unreadable file), a parse error, or a parsed file. -/
abbrev TplSource := String → Option (Except String TemplateFile)

/-- Model of `template.ParseFiles` over the render unit's path list: files
are read left to right, the first failure aborts, and each file contributes
its definitions; later files override earlier ones via `lookupDef`. -/
def parseFiles (tfs : TplSource) : List String → Except String (List (String × Tpl))
  | [] => Except.ok []
  | fname :: rest =>
    match tfs fname with
    | none => Except.error ("open " ++ fname ++ ": no such file or directory")
    | some (Except.error e) => Except.error e
    | some (Except.ok tf) =>
      match parseFiles tfs rest with
      | Except.error e => Except.error e
      | Except.ok ds => Except.ok (fileDefs fname tf ++ ds)

/-- What the zero-value missing-key policy substitutes for an absent key:
the zero value of the map's element type, which Go prints as the
no-value marker for an interface-valued map. -/
def zeroValue : String := "<no value>"

/-- Evaluates a template body against the value map. `evalInvoke` performs
the invocation of a named template; `strict` is the error-on-missing-key
policy. -/
def evalBody (evalInvoke : String → Except String String) (strict : Bool)
    (vals : Values) : Tpl → Except String String
  | [] => Except.ok ""
  | Node.text s :: rest =>
    match evalBody evalInvoke strict vals rest with
    | Except.error e => Except.error e
    | Except.ok r => Except.ok (s ++ r)
  | Node.field k :: rest =>
    match lookupVal vals k with
    | some v =>
      match evalBody evalInvoke strict vals rest with
      | Except.error e => Except.error e
      | Except.ok r => Except.ok (v ++ r)
    | none =>
      if strict then Except.error ("map has no entry for key \"" ++ k ++ "\"")
      else
        match evalBody evalInvoke strict vals rest with
        | Except.error e => Except.error e
        | Except.ok r => Except.ok (zeroValue ++ r)
  | Node.invoke n :: rest =>
    match evalInvoke n with
    | Except.error e => Except.error e
    | Except.ok s =>
      match evalBody evalInvoke strict vals rest with
      | Except.error e => Except.error e
      | Except.ok r => Except.ok (s ++ r)

/-- Template evaluation with a depth budget for nested invocations,
mirroring the depth guard of `text/template` against recursive templates. -/
def evalTpl (ds : List (String × Tpl)) (strict : Bool) (vals : Values) :
    Nat → Tpl → Except String String
  | 0, body =>
    evalBody (fun _ => Except.error "exceeded maximum template depth") strict vals body
  | fuel+1, body =>
    evalBody (fun n =>
      match lookupDef ds n with
      | none => Except.error ("no such template \"" ++ n ++ "\"")
      | some b => evalTpl ds strict vals fuel b) strict vals body

/-- The depth budget used by `text/template`. -/
def maxExecDepth : Nat := 100000

/-- Model of `tpl.Execute`: executes the template bearing the root name
(the base name of the last parsed file). A missing definition yields the
incomplete-template error; evaluation failures are wrapped the way Go's
exec errors are, naming the failing template rather than the file paths. -/
def templateExecute (name : String) (strict : Bool) (ds : List (String × Tpl))
    (vals : Values) : Except String String :=
  match lookupDef ds name with
  | none =>
    Except.error ("template: " ++ ("\"" ++ name ++ "\" is an incomplete or empty template"))
  | some b =>
    match evalTpl ds strict vals maxExecDepth b with
    | Except.error e => Except.error ("template: " ++ (name ++ ": " ++ e))
    | Except.ok s => Except.ok s

/-! ## Renderer state and filesystem model -/

/-- Model of the `Renderer` configuration (renderer.go lines 16-21).
`FuncMap` is not modelled: the template constructs in scope here do not
call helper functions. -/
structure Renderer where
  Inputs : List String
  PreloadFiles : List String
  StopOnError : Bool

/-- Observable state threaded through a call: paths opened with `os.Open`,
directories ensured with `os.MkdirAll`, the contents of output files, the
render units started, and text written to standard output. -/
structure St where
  opened : List String
  dirsMade : List String
  files : List (String × String)
  rendered : List (List String × String)
  stdout : String

/-- The state before a call: nothing opened, made, written or rendered. -/
def St.init : St := ⟨[], [], [], [], ""⟩

/-- An input filesystem node: a template file (with its parse outcome) or a
directory with its immediate entry names. -/
inductive FsNode
  | file (tf : Except String TemplateFile)
  | dir (entries : List String)

/-- The input filesystem: a map from path to node. -/
abbrev Fs := String → Option FsNode

/-- The probe `getOutputPath` performs on the base path (renderer.go lines
97-103): open it, stat it, and ask whether it is a directory. -/
def isDirOnDisk (fs : Fs) (p : String) : Bool :=
  match fs p with
  | some (FsNode.dir _) => true
  | _ => false

/-- How `ParseFiles` sees the input filesystem. -/
def tplSourceOf (fs : Fs) : TplSource := fun p =>
  match fs p with
  | some (FsNode.file tf) => some tf
  | _ => none

/-! ## The engine (models of `getOutputPath`, `render`, `execute`) -/

/-- The suffix-stripping step of `getOutputPath` (renderer.go lines 89-93):
a trailing `.tpl` is stripped when present, otherwise a trailing `.tmpl`,
otherwise the name is unchanged. -/
def stripTemplateSuffix (fn : String) : String :=
  if hasSuffix fn ".tpl" then trimSuffix fn ".tpl"
  else if hasSuffix fn ".tmpl" then trimSuffix fn ".tmpl"
  else fn

/-- Model of `getOutputPath` (renderer.go lines 85-105). The filesystem
probe on `base` is abstracted as `probe`. -/
def getOutputPath (probe : String → Bool) (base fn : String) : String :=
  if base = "" ∨ base = "-" then "-"
  else
    let fn := stripTemplateSuffix fn
    if hasSuffix base "/" then joinPath base fn
    else if probe base then joinPath base fn
    else base

/-- The name of the combined template: `filepath.Base` of the last entry of
the render unit's path list (renderer.go line 133). Go would panic on an
empty list; `Execute` always passes a nonempty one. -/
def renderUnitName (inames : List String) : String :=
  basePath (inames.getLastD "")

/-- Appends `v` to the content stored under `k`. -/
def updFiles : List (String × String) → String → String → List (String × String)
  | [], _, _ => []
  | (a, w) :: rest, k, v =>
    (if a = k then (a, w ++ v) else (a, w)) :: updFiles rest k v

/-- Model of `render` (renderer.go lines 107-150). A file destination is
opened in create/append mode and never truncated, after the parent
directory chain is ensured when the output name contains a separator. The
model commits the rendered text at success; the partial output a failing
streamed execution may leave behind is not modelled. -/
def render (r : Renderer) (tfs : TplSource) (vals : Values) (inames : List String)
    (oname : String) (st : St) : Option String × St :=
  if oname = "" then (some "Output name cannot be blank", st)
  else
    let st1 := { st with rendered := st.rendered ++ [(inames, oname)] }
    let st2 :=
      if oname = "-" then st1
      else
        let stm :=
          if strContains oname "/" then
            { st1 with dirsMade := st1.dirsMade ++ [dirPath oname] }
          else st1
        if (lookupVal stm.files oname).isSome then stm
        else { stm with files := stm.files ++ [(oname, "")] }
    match parseFiles tfs inames with
    | Except.error e =>
      (some ("Cannot parse templates [" ++ (joinComma inames ++ ("]: " ++ e))), st2)
    | Except.ok ds =>
      match templateExecute (renderUnitName inames) r.StopOnError ds vals with
      | Except.error e => (some e, st2)
      | Except.ok text =>
        if oname = "-" then (none, { st2 with stdout := st2.stdout ++ text })
        else (none, { st2 with files := updFiles st2.files oname text })

/-- The sorted child paths of a directory input (renderer.go lines 63-69):
each entry name is joined to the directory's path and the generated list is
sorted. -/
def dirChildren (d : String) (entries : List String) : List String :=
  sortStrings (entries.map (fun ei => joinPath d ei))

/-- The output target passed down into a directory (renderer.go lines
71-74): when the current target ends with a separator, the directory's base
name plus a separator is appended; otherwise the target passes through
unchanged. -/
def dirOutpath (out d : String) : String :=
  if hasSuffix out "/" then out ++ (basePath d ++ "/") else out

/-- The body of one `execute` loop iteration (renderer.go lines 31-80) on
the single input `fn`, with the recursive descent into a directory
abstracted as `goDir`. The input is opened and stat-ed; a file is rendered
with the preloads prepended; a directory descends via `goDir` over its
sorted generated children with the adjusted output target. -/
def execStep (r : Renderer) (fs : Fs) (vals : Values)
    (goDir : List String → String → St → Option String × St)
    (fn : String) (out : String) (st : St) : Option String × St :=
  let sto := { st with opened := st.opened ++ [fn] }
  match fs fn with
  | none => (some ("open " ++ fn ++ ": no such file or directory"), sto)
  | some (FsNode.file _) =>
    render r (tplSourceOf fs) vals (r.PreloadFiles ++ [fn])
      (getOutputPath (isDirOnDisk fs) out (basePath fn)) sto
  | some (FsNode.dir entries) =>
    goDir (dirChildren fn entries) (dirOutpath out fn) sto

/-- One pass of the `execute` loop (renderer.go lines 28-83) over the input
list, in the given order: the first error aborts the whole loop. -/
def execList (r : Renderer) (fs : Fs) (vals : Values)
    (goDir : List String → String → St → Option String × St) :
    List String → String → St → Option String × St
  | [], _, st => (none, st)
  | fn :: rest, out, st =>
    match execStep r fs vals goDir fn out st with
    | (some e, st1) => (some e, st1)
    | (none, st1) => execList r fs vals goDir rest out st1

/-- Model of the recursive `execute` (renderer.go lines 28-83). Go's
recursion is bounded only by the finite depth of the real filesystem; the
model makes that bound explicit as `fuel`, consumed once per directory
descent. -/
def executeFs (r : Renderer) (fs : Fs) (vals : Values) :
    Nat → List String → String → St → Option String × St
  | 0 => execList r fs vals (fun _ _ st => (some "maximum directory depth exceeded", st))
  | fuel+1 => execList r fs vals (executeFs r fs vals fuel)

/-- Model of `Renderer.Execute` (renderer.go lines 24-26): runs the loop
over the configured inputs. -/
def Renderer.Execute (r : Renderer) (fs : Fs) (fuel : Nat) (out : String)
    (vals : Values) (st : St) : Option String × St :=
  executeFs r fs vals fuel r.Inputs out st

/-! ## Concrete fixtures used by witnesses -/

/-- A filesystem with no entries at all. -/
def fsEmpty : Fs := fun _ => none

/-- A filesystem holding one directory `d` with entries `b` and `a`. -/
def fsOneDir : Fs :=
  fun p => if p = "d" then some (FsNode.dir ["b", "a"]) else none

/-- A preload file defining the sub-template `n` as the text `P`. -/
def tfPre : TemplateFile := ⟨[], [("n", [Node.text "P"])]⟩

/-- A target file whose body invokes `n` and which redefines `n` as the
text `T`. -/
def tfTgt : TemplateFile := ⟨[Node.invoke "n"], [("n", [Node.text "T"])]⟩

/-- A filesystem holding the preload `p.tpl` and the target `t.tpl`. -/
def fsOverride : Fs :=
  fun p =>
    if p = "t.tpl" then some (FsNode.file (Except.ok tfTgt))
    else if p = "p.tpl" then some (FsNode.file (Except.ok tfPre))
    else none

/-- The combined namespace parsed from `p.tpl` followed by `t.tpl`. -/
def dsOverride : List (String × Tpl) :=
  [("p.tpl", []), ("n", [Node.text "P"]), ("t.tpl", [Node.invoke "n"]), ("n", [Node.text "T"])]

/-- A template source holding one file `t` whose body is the text `hi`. -/
def tfsHi : TplSource :=
  fun p => if p = "t" then some (Except.ok ⟨[Node.text "hi"], []⟩) else none

/-! ## Helper lemmas -/

theorem strAppend_empty (s : String) : s ++ "" = s := by
  cases s with
  | mk d => apply String.ext; simp [String.data_append]

theorem strAppend_assoc (a b c : String) : a ++ b ++ c = a ++ (b ++ c) := by
  apply String.ext
  simp [String.data_append, List.append_assoc]

theorem isPrefixOf_append_self (l t : List Char) : l.isPrefixOf (l ++ t) = true := by
  induction l with
  | nil => cases t <;> simp [List.isPrefixOf]
  | cons c l ih => simp [List.isPrefixOf, List.cons_append, ih]

theorem subList_sandwich (a b c : List Char) : subList b (a ++ (b ++ c)) = true := by
  induction a with
  | nil =>
    cases b with
    | nil => cases c <;> simp [subList, List.isPrefixOf, List.isEmpty]
    | cons x b => simp [subList, List.cons_append, isPrefixOf_append_self]
  | cons x a ih => simp [subList, List.cons_append, ih]

theorem strContains_sandwich (pre j tail : String) :
    strContains (pre ++ j ++ tail) j = true := by
  have hd : (pre ++ j ++ tail).data = pre.data ++ (j.data ++ tail.data) := by
    simp [String.data_append, List.append_assoc]
  rw [strContains, hd]
  exact subList_sandwich _ _ _

theorem tmpl_msg_ne_blank (s : String) :
    ("template: " ++ s) ≠ "Output name cannot be blank" := by
  intro h
  have hd := congrArg String.data h
  rw [String.data_append] at hd
  simp at hd

theorem parse_msg_ne_blank (s : String) :
    ("Cannot parse templates [" ++ s) ≠ "Output name cannot be blank" := by
  intro h
  have hd := congrArg String.data h
  rw [String.data_append] at hd
  simp at hd

theorem mk_ne_empty (c : Char) (l : List Char) : String.mk (c :: l) ≠ "" := by
  intro h
  have hd := congrArg String.data h
  simp at hd

theorem cleanPath_ne_empty (p : String) : cleanPath p ≠ "" := by
  simp only [cleanPath]
  by_cases h1 : p = ""
  · rw [if_pos h1]; decide
  · rw [if_neg h1]
    by_cases h2 : isRootedChars p.data = true
    · rw [if_pos h2]; exact mk_ne_empty _ _
    · rw [if_neg h2]
      by_cases h3 : cleanBody false p.data = []
      · rw [if_pos h3]; decide
      · rw [if_neg h3]
        intro hcon
        apply h3
        have hd := congrArg String.data hcon
        simpa using hd

theorem joinPath_ne_empty (a b : String) (ha : a ≠ "") : joinPath a b ≠ "" := by
  simp only [joinPath]
  rw [if_neg (fun hb => ha hb.1)]
  by_cases h2 : a = ""
  · exact absurd h2 ha
  · rw [if_neg h2]
    by_cases h3 : b = ""
    · rw [if_pos h3]; exact cleanPath_ne_empty _
    · rw [if_neg h3]; exact cleanPath_ne_empty _

theorem lookupDef_append (ds1 ds2 : List (String × Tpl)) (n : String) :
    lookupDef (ds1 ++ ds2) n =
      match lookupDef ds2 n with
      | some r => some r
      | none => lookupDef ds1 n := by
  induction ds1 with
  | nil =>
    rw [List.nil_append]
    cases lookupDef ds2 n <;> simp [lookupDef]
  | cons p ds1 ih =>
    cases p with
    | mk m b =>
      rw [List.cons_append]
      simp only [lookupDef, ih]
      cases lookupDef ds2 n <;> rfl

theorem lookupVal_updFiles (fsv : List (String × String)) (k v : String) :
    lookupVal (updFiles fsv k v) k = (lookupVal fsv k).map (fun s => s ++ v) := by
  induction fsv with
  | nil => rfl
  | cons p rest ih =>
    cases p with
    | mk a w =>
      simp only [updFiles]
      by_cases hak : a = k
      · subst hak
        rw [if_pos rfl]
        simp [lookupVal]
      · rw [if_neg hak]
        simp only [lookupVal, if_neg hak]
        exact ih

theorem lookupVal_append_missing (fsv : List (String × String)) (k v : String)
    (h : lookupVal fsv k = none) :
    lookupVal (fsv ++ [(k, v)]) k = some v := by
  induction fsv with
  | nil => simp [lookupVal]
  | cons p rest ih =>
    cases p with
    | mk a w =>
      by_cases hak : a = k
      · simp [lookupVal, hak] at h
      · rw [List.cons_append]
        simp only [lookupVal, if_neg hak] at h ⊢
        exact ih h

theorem lookupVal_opened (fsv : List (String × String)) (k : String) :
    lookupVal (if (lookupVal fsv k).isSome then fsv else fsv ++ [(k, "")]) k =
      some ((lookupVal fsv k).getD "") := by
  cases h : lookupVal fsv k with
  | some s => simp [h]
  | none => simp [h, lookupVal_append_missing _ _ _ h]

theorem execList_append (r : Renderer) (fs : Fs) (vals : Values)
    (goDir : List String → String → St → Option String × St)
    (xs ys : List String) (out : String) (st : St) :
    execList r fs vals goDir (xs ++ ys) out st =
      match execList r fs vals goDir xs out st with
      | (some e, st1) => (some e, st1)
      | (none, st1) => execList r fs vals goDir ys out st1 := by
  induction xs generalizing st with
  | nil => rw [List.nil_append]; rfl
  | cons x xs ih =>
    rw [List.cons_append]
    simp only [execList]
    cases hh : execStep r fs vals goDir x out st with
    | mk eo st1 =>
      cases eo with
      | some e => rfl
      | none => exact ih st1

theorem executeFs_append (r : Renderer) (fs : Fs) (vals : Values) (fl : Nat)
    (xs ys : List String) (out : String) (st : St) :
    executeFs r fs vals fl (xs ++ ys) out st =
      match executeFs r fs vals fl xs out st with
      | (some e, st1) => (some e, st1)
      | (none, st1) => executeFs r fs vals fl ys out st1 := by
  cases fl with
  | zero => simp only [executeFs]; exact execList_append _ _ _ _ _ _ _ _
  | succ n => simp only [executeFs]; exact execList_append _ _ _ _ _ _ _ _

theorem render_ok (r : Renderer) (tfs : TplSource) (vals : Values) (inames : List String)
    (oname : String) (st : St) (ds : List (String × Tpl)) (t : String)
    (hdash : oname ≠ "-") (hblank : oname ≠ "")
    (hp : parseFiles tfs inames = Except.ok ds)
    (he : templateExecute (renderUnitName inames) r.StopOnError ds vals = Except.ok t) :
    render r tfs vals inames oname st =
      (none,
        { opened := st.opened,
          dirsMade := st.dirsMade ++ (if strContains oname "/" then [dirPath oname] else []),
          files := updFiles
            (if (lookupVal st.files oname).isSome then st.files
             else st.files ++ [(oname, "")]) oname t,
          rendered := st.rendered ++ [(inames, oname)],
          stdout := st.stdout }) := by
  by_cases hc : strContains oname "/" = true <;>
    by_cases hl : (lookupVal st.files oname).isSome = true <;>
      simp [render, hblank, hdash, hp, he, hc, hl]

theorem templateExecute_error_ne_blank (name : String) (strict : Bool)
    (ds : List (String × Tpl)) (vals : Values) (e : String)
    (he : templateExecute name strict ds vals = Except.error e) :
    e ≠ "Output name cannot be blank" := by
  simp only [templateExecute] at he
  rcases hld : lookupDef ds name with _ | b <;> rw [hld] at he <;> dsimp only at he
  · injection he with hme
    rw [← hme]
    exact tmpl_msg_ne_blank _
  · rcases hev : evalTpl ds strict vals maxExecDepth b with e2 | s <;>
      rw [hev] at he <;> dsimp only at he
    · injection he with hme
      rw [← hme]
      exact tmpl_msg_ne_blank _
    · exact Except.noConfusion he

theorem render_blank_only (r : Renderer) (tfs : TplSource) (vals : Values)
    (inames : List String) (oname : String) (st : St)
    (h : (render r tfs vals inames oname st).1 = some "Output name cannot be blank") :
    oname = "" := by
  by_cases ho : oname = ""
  · exact ho
  · exfalso
    simp only [render, if_neg ho] at h
    rcases hp : parseFiles tfs inames with e | ds <;> rw [hp] at h <;> dsimp only at h
    · injection h with hme
      exact parse_msg_ne_blank _ hme
    · rcases he : templateExecute (renderUnitName inames) r.StopOnError ds vals
        with e | txt <;> rw [he] at h <;> dsimp only at h
      · injection h with hme
        exact templateExecute_error_ne_blank _ _ _ _ _ he hme
      · by_cases hdash : oname = "-" <;> simp [hdash] at h

/-! ## Claim theorems -/

/-- C10: `Execute` called with an empty input list returns success (no
error) without opening any path, rendering any template, or writing any
output: the observable state is returned unchanged. -/
theorem execute_empty_inputs_noop (r : Renderer) (fs : Fs) (fuel : Nat)
    (out : String) (vals : Values) (st : St) (h : r.Inputs = []) :
    r.Execute fs fuel out vals st = (none, st) := by
  cases fuel <;> simp [Renderer.Execute, executeFs, h, execList]

/-- Witness for C10 at a concrete renderer with no inputs. -/
theorem execute_empty_inputs_noop_w :
    (Renderer.mk [] [] true).Inputs = [] ∧
    (Renderer.mk [] [] true).Execute fsEmpty 1 "-" [] St.init = (none, St.init) :=
  ⟨rfl, execute_empty_inputs_noop (Renderer.mk [] [] true) fsEmpty 1 "-" [] St.init rfl⟩

/-- C6: `execute` returns the first error encountered in depth-first,
left-to-right order, and that error aborts the entire call: appending
further inputs after a failing list changes neither the error nor the
final observable state, so no later input is opened, traversed, or
rendered, and no partial-success result is reported. -/
theorem execute_first_error_aborts (r : Renderer) (fs : Fs) (vals : Values)
    (fuel : Nat) (xs ys : List String) (out : String) (st st1 : St) (e : String)
    (h : executeFs r fs vals fuel xs out st = (some e, st1)) :
    executeFs r fs vals fuel (xs ++ ys) out st = (some e, st1) := by
  rw [executeFs_append, h]

/-- Witness for C6: a missing first input aborts before the second input
ever appears in the opened-paths trace. -/
theorem execute_first_error_aborts_w :
    executeFs (Renderer.mk [] [] true) fsEmpty [] 1 ["missing"] "-" St.init =
      (some "open missing: no such file or directory", ⟨["missing"], [], [], [], ""⟩) ∧
    executeFs (Renderer.mk [] [] true) fsEmpty [] 1 (["missing"] ++ ["other"]) "-" St.init =
      (some "open missing: no such file or directory", ⟨["missing"], [], [], [], ""⟩) :=
  ⟨rfl,
   execute_first_error_aborts (Renderer.mk [] [] true) fsEmpty [] 1 ["missing"] ["other"]
     "-" St.init ⟨["missing"], [], [], [], ""⟩ "open missing: no such file or directory" rfl⟩

/-- C2: `getOutputPath` returns the stdout marker whenever the base is
empty or the marker itself, regardless of filename; otherwise, when the
base ends with a separator or probes as an existing directory, it returns
the base joined with the suffix-stripped filename; otherwise it returns
the base verbatim. -/
theorem getOutputPath_cases (probe : String → Bool) (base fn : String) :
    ((base = "" ∨ base = "-") → getOutputPath probe base fn = "-")
  ∧ (¬(base = "" ∨ base = "-") →
      ((hasSuffix base "/" = true ∨ probe base = true) →
        getOutputPath probe base fn = joinPath base (stripTemplateSuffix fn))
    ∧ (hasSuffix base "/" = false → probe base = false →
        getOutputPath probe base fn = base)) := by
  refine ⟨fun h => by simp [getOutputPath, h], fun hne => ⟨fun hor => ?_, fun h1 h2 => ?_⟩⟩
  · rcases hor with h | h
    · simp [getOutputPath, hne, h]
    · by_cases hs : hasSuffix base "/" = true
      · simp [getOutputPath, hne, hs]
      · simp [getOutputPath, hne, hs, h]
  · simp [getOutputPath, hne, h1, h2]

/-- Witness for C2 covering all four branches. -/
theorem getOutputPath_cases_w :
    getOutputPath (fun _ => false) "" "x.tpl" = "-" ∧
    getOutputPath (fun _ => false) "-" "x.tpl" = "-" ∧
    getOutputPath (fun _ => false) "out/" "a.tpl" =
      joinPath "out/" (stripTemplateSuffix "a.tpl") ∧
    getOutputPath (fun _ => true) "out" "a.tpl" =
      joinPath "out" (stripTemplateSuffix "a.tpl") ∧
    getOutputPath (fun _ => false) "o.txt" "a.tpl" = "o.txt" :=
  ⟨(getOutputPath_cases (fun _ => false) "" "x.tpl").1 (Or.inl rfl),
   (getOutputPath_cases (fun _ => false) "-" "x.tpl").1 (Or.inr rfl),
   ((getOutputPath_cases (fun _ => false) "out/" "a.tpl").2 (by decide)).1 (Or.inl rfl),
   ((getOutputPath_cases (fun _ => true) "out" "a.tpl").2 (by decide)).1 (Or.inr rfl),
   ((getOutputPath_cases (fun _ => false) "o.txt" "a.tpl").2 (by decide)).2 rfl rfl⟩

/-- C4: suffix stripping removes at most one suffix: a trailing `.tpl` is
checked first and stripped when present, otherwise a trailing `.tmpl` is
stripped when present, otherwise the filename is unchanged; in particular
`x.tpl.tmpl` loses only its trailing `.tmpl`, yielding `x.tpl`, and any
other extension is preserved as-is. -/
theorem stripTemplateSuffix_cases (fn : String) :
    (hasSuffix fn ".tpl" = true → stripTemplateSuffix fn = trimSuffix fn ".tpl")
  ∧ (hasSuffix fn ".tpl" = false → hasSuffix fn ".tmpl" = true →
      stripTemplateSuffix fn = trimSuffix fn ".tmpl")
  ∧ (hasSuffix fn ".tpl" = false → hasSuffix fn ".tmpl" = false →
      stripTemplateSuffix fn = fn)
  ∧ stripTemplateSuffix "x.tpl.tmpl" = "x.tpl"
  ∧ stripTemplateSuffix "x.txt" = "x.txt" := by
  refine ⟨fun h1 => by simp [stripTemplateSuffix, h1],
          fun h1 h2 => by simp [stripTemplateSuffix, h1, h2],
          fun h1 h2 => by simp [stripTemplateSuffix, h1, h2], rfl, rfl⟩

/-- Witness for C4 covering the three stripping branches. -/
theorem stripTemplateSuffix_cases_w :
    hasSuffix "a.tpl" ".tpl" = true ∧
    stripTemplateSuffix "a.tpl" = trimSuffix "a.tpl" ".tpl" ∧
    stripTemplateSuffix "a.tmpl" = trimSuffix "a.tmpl" ".tmpl" ∧
    stripTemplateSuffix "a.md" = "a.md" :=
  ⟨rfl, (stripTemplateSuffix_cases "a.tpl").1 rfl,
   (stripTemplateSuffix_cases "a.tmpl").2.1 rfl rfl,
   (stripTemplateSuffix_cases "a.md").2.2.1 rfl rfl⟩

/-- C1: for every directory encountered during `execute`, the engine lists
the directory's immediate entries, joins each entry name to the
directory's path, sorts the generated child paths lexicographically, and
recurses over them in that sorted order with the new output target given
by the trailing-separator rule; the caller-supplied input list itself is
processed head-first in the given order and is never re-sorted (running a
concatenation of input lists equals running the first list and continuing
with the second from the resulting state). -/
theorem execute_dir_traversal (r : Renderer) (fs : Fs) (vals : Values) (fuel : Nat)
    (d : String) (rest : List String) (out : String) (st : St) (entries : List String)
    (h : fs d = some (FsNode.dir entries)) :
    executeFs r fs vals (fuel+1) (d :: rest) out st =
      (match executeFs r fs vals fuel (dirChildren d entries) (dirOutpath out d)
          { st with opened := st.opened ++ [d] } with
       | (some e, st1) => (some e, st1)
       | (none, st1) => executeFs r fs vals (fuel+1) rest out st1)
  ∧ dirChildren d entries = sortStrings (entries.map (fun ei => joinPath d ei))
  ∧ List.Sorted (fun a b => a ≤ b) (dirChildren d entries)
  ∧ List.Perm (dirChildren d entries) (entries.map (fun ei => joinPath d ei))
  ∧ dirOutpath out d = (if hasSuffix out "/" then out ++ (basePath d ++ "/") else out)
  ∧ (∀ (fl : Nat) (xs ys : List String) (o : String) (s : St),
      executeFs r fs vals fl (xs ++ ys) o s =
        match executeFs r fs vals fl xs o s with
        | (some e, st1) => (some e, st1)
        | (none, st1) => executeFs r fs vals fl ys o st1) := by
  refine ⟨?_, rfl, ?_, ?_, rfl, fun fl xs ys o s => executeFs_append r fs vals fl xs ys o s⟩
  · simp only [executeFs, execList, execStep, h]
  · exact List.sorted_insertionSort _ _
  · exact List.perm_insertionSort _ _

/-- Witness for C1 on a directory `d` holding entries `b` and `a`. -/
theorem execute_dir_traversal_w :
    fsOneDir "d" = some (FsNode.dir ["b", "a"]) ∧
    (executeFs (Renderer.mk [] [] true) fsOneDir [] 1 ["d"] "-" St.init =
      match executeFs (Renderer.mk [] [] true) fsOneDir [] 0 (dirChildren "d" ["b", "a"])
          (dirOutpath "-" "d") { St.init with opened := St.init.opened ++ ["d"] } with
       | (some e, st1) => (some e, st1)
       | (none, st1) => executeFs (Renderer.mk [] [] true) fsOneDir [] 1 [] "-" st1) ∧
    dirChildren "d" ["b", "a"] = sortStrings (["b", "a"].map (fun ei => joinPath "d" ei)) ∧
    List.Sorted (fun a b => a ≤ b) (dirChildren "d" ["b", "a"]) ∧
    List.Perm (dirChildren "d" ["b", "a"]) (["b", "a"].map (fun ei => joinPath "d" ei)) ∧
    executeFs (Renderer.mk [] [] true) fsOneDir [] 1 (["x"] ++ ["y"]) "-" St.init =
      (match executeFs (Renderer.mk [] [] true) fsOneDir [] 1 ["x"] "-" St.init with
       | (some e, st1) => (some e, st1)
       | (none, st1) => executeFs (Renderer.mk [] [] true) fsOneDir [] 1 ["y"] "-" st1) :=
  ⟨rfl,
   (execute_dir_traversal (Renderer.mk [] [] true) fsOneDir [] 0 "d" [] "-" St.init
     ["b", "a"] rfl).1,
   (execute_dir_traversal (Renderer.mk [] [] true) fsOneDir [] 0 "d" [] "-" St.init
     ["b", "a"] rfl).2.1,
   (execute_dir_traversal (Renderer.mk [] [] true) fsOneDir [] 0 "d" [] "-" St.init
     ["b", "a"] rfl).2.2.1,
   (execute_dir_traversal (Renderer.mk [] [] true) fsOneDir [] 0 "d" [] "-" St.init
     ["b", "a"] rfl).2.2.2.1,
   (execute_dir_traversal (Renderer.mk [] [] true) fsOneDir [] 0 "d" [] "-" St.init
     ["b", "a"] rfl).2.2.2.2.2 1 ["x"] ["y"] "-" St.init⟩

theorem parseFiles_last_wins (tfs : TplSource) (ps : List String) (t : String)
    (tf : TemplateFile) (n : String) (b : Tpl)
    (htf : tfs t = some (Except.ok tf))
    (hb : lookupDef (fileDefs t tf) n = some b) :
    ∀ ds : List (String × Tpl),
      parseFiles tfs (ps ++ [t]) = Except.ok ds → lookupDef ds n = some b := by
  induction ps with
  | nil =>
    intro ds hp
    rw [List.nil_append] at hp
    simp only [parseFiles, htf] at hp
    injection hp with hds
    rw [← hds, List.append_nil]
    exact hb
  | cons p ps ih =>
    intro ds hp
    rw [List.cons_append] at hp
    simp only [parseFiles] at hp
    rcases htp : tfs p with _ | epf
    · rw [htp] at hp
      exact Except.noConfusion hp
    · rcases epf with e | tfp
      · rw [htp] at hp
        dsimp only at hp
        exact Except.noConfusion hp
      · rw [htp] at hp
        dsimp only at hp
        rcases hrec : parseFiles tfs (ps ++ [t]) with e | ds2
        · rw [hrec] at hp
          exact Except.noConfusion hp
        · rw [hrec] at hp
          dsimp only at hp
          injection hp with hds
          rw [← hds, lookupDef_append, ih ds2 hrec]

theorem evalTpl_invoke (ds : List (String × Tpl)) (strict : Bool) (vs : Values)
    (fl : Nat) (n : String) (b : Tpl) (hb : lookupDef ds n = some b) :
    evalTpl ds strict vs (fl+1) [Node.invoke n] = evalTpl ds strict vs fl b := by
  simp only [evalTpl, evalBody, hb]
  cases hev : evalTpl ds strict vs fl b with
  | error e => rfl
  | ok s => simp [strAppend_empty]

/-- C3: for every regular-file input processed by `execute`, the render
unit's template-source list is exactly the configured preload files in
their configured order followed by the target file last; the combined
template is named after the base name of the last path in that list; and a
named sub-template defined both in a preload file and in the target file
resolves to the target file's (last) definition when invoked. -/
theorem preloads_then_target (r : Renderer) (fs : Fs) (vals : Values) (fuel : Nat)
    (fn : String) (rest : List String) (out : String) (st : St)
    (pf : Except String TemplateFile)
    (h : fs fn = some (FsNode.file pf)) :
    executeFs r fs vals fuel (fn :: rest) out st =
      (match render r (tplSourceOf fs) vals (r.PreloadFiles ++ [fn])
          (getOutputPath (isDirOnDisk fs) out (basePath fn))
          { st with opened := st.opened ++ [fn] } with
       | (some e, st1) => (some e, st1)
       | (none, st1) => executeFs r fs vals fuel rest out st1)
  ∧ renderUnitName (r.PreloadFiles ++ [fn]) = basePath fn
  ∧ (∀ (tfs : TplSource) (ps : List String) (t : String) (tf : TemplateFile)
       (ds : List (String × Tpl)) (n : String) (b : Tpl),
      tfs t = some (Except.ok tf) →
      parseFiles tfs (ps ++ [t]) = Except.ok ds →
      lookupDef (fileDefs t tf) n = some b →
      lookupDef ds n = some b)
  ∧ (∀ (ds : List (String × Tpl)) (strict : Bool) (vs : Values) (fl : Nat)
       (n : String) (b : Tpl),
      lookupDef ds n = some b →
      evalTpl ds strict vs (fl+1) [Node.invoke n] = evalTpl ds strict vs fl b) := by
  refine ⟨?_, ?_,
    fun tfs ps t tf ds n b htf hp hb => parseFiles_last_wins tfs ps t tf n b htf hb ds hp,
    fun ds strict vs fl n b hb => evalTpl_invoke ds strict vs fl n b hb⟩
  · cases fuel <;> simp only [executeFs, execList, execStep, h]
  · simp [renderUnitName, List.getLastD_concat]

/-- Witness for C3: preload `p.tpl` and target `t.tpl` both define `n`;
the target's definition wins. -/
theorem preloads_then_target_w :
    fsOverride "t.tpl" = some (FsNode.file (Except.ok tfTgt)) ∧
    (executeFs (Renderer.mk [] ["p.tpl"] false) fsOverride [] 1 ["t.tpl"] "-" St.init =
      match render (Renderer.mk [] ["p.tpl"] false) (tplSourceOf fsOverride) []
          (["p.tpl"] ++ ["t.tpl"])
          (getOutputPath (isDirOnDisk fsOverride) "-" (basePath "t.tpl"))
          { St.init with opened := St.init.opened ++ ["t.tpl"] } with
       | (some e, st1) => (some e, st1)
       | (none, st1) => executeFs (Renderer.mk [] ["p.tpl"] false) fsOverride [] 1 [] "-" st1) ∧
    renderUnitName (["p.tpl"] ++ ["t.tpl"]) = basePath "t.tpl" ∧
    lookupDef dsOverride "n" = some [Node.text "T"] ∧
    evalTpl dsOverride false [] 1 [Node.invoke "n"] = evalTpl dsOverride false [] 0 [Node.text "T"] :=
  ⟨rfl,
   (preloads_then_target (Renderer.mk [] ["p.tpl"] false) fsOverride [] 1 "t.tpl" [] "-"
     St.init (Except.ok tfTgt) rfl).1,
   (preloads_then_target (Renderer.mk [] ["p.tpl"] false) fsOverride [] 1 "t.tpl" [] "-"
     St.init (Except.ok tfTgt) rfl).2.1,
   (preloads_then_target (Renderer.mk [] ["p.tpl"] false) fsOverride [] 1 "t.tpl" [] "-"
     St.init (Except.ok tfTgt) rfl).2.2.1 (tplSourceOf fsOverride) ["p.tpl"] "t.tpl" tfTgt
     dsOverride "n" [Node.text "T"] rfl rfl rfl,
   (preloads_then_target (Renderer.mk [] ["p.tpl"] false) fsOverride [] 1 "t.tpl" [] "-"
     St.init (Except.ok tfTgt) rfl).2.2.2 dsOverride false [] 0 "n" [Node.text "T"] rfl⟩

/-- C5: under the strict missing-key policy, executing a template that
references a key absent from the value map fails the render with an
error; under the lenient policy the same execution succeeds and the
absent key is substituted with the zero/empty value. -/
theorem missing_key_policy (name pre post k : String) (ds : List (String × Tpl))
    (vals : Values)
    (hd : lookupDef ds name = some [Node.text pre, Node.field k, Node.text post])
    (hk : lookupVal vals k = none) :
    templateExecute name true ds vals =
      Except.error ("template: " ++ (name ++ ": " ++
        ("map has no entry for key \"" ++ k ++ "\"")))
  ∧ templateExecute name false ds vals = Except.ok (pre ++ zeroValue ++ post) := by
  have h100 : maxExecDepth = 99999 + 1 := rfl
  constructor
  · simp only [templateExecute, hd, h100, evalTpl, evalBody, hk]
    simp
  · simp only [templateExecute, hd, h100, evalTpl, evalBody, hk]
    simp [strAppend_empty, strAppend_assoc]

/-- Witness for C5 on a template body `a{{.K}}b` with `K` absent. -/
theorem missing_key_policy_w :
    lookupVal [("X", "1")] "K" = none ∧
    templateExecute "t" true [("t", [Node.text "a", Node.field "K", Node.text "b"])]
      [("X", "1")] = Except.error "template: t: map has no entry for key \"K\"" ∧
    templateExecute "t" false [("t", [Node.text "a", Node.field "K", Node.text "b"])]
      [("X", "1")] = Except.ok "a<no value>b" :=
  ⟨rfl,
   (missing_key_policy "t" "a" "b" "K" [("t", [Node.text "a", Node.field "K", Node.text "b"])]
     [("X", "1")] rfl rfl).1,
   (missing_key_policy "t" "a" "b" "K" [("t", [Node.text "a", Node.field "K", Node.text "b"])]
     [("X", "1")] rfl rfl).2⟩

/-- C7: for a non-stdout output path, `render` ensures the parent
directory chain when the name contains a separator, opens the destination
in create/append mode, and never truncates: the new content extends the
old, and two sequential renders targeting the same literal output file
concatenate both rendered outputs rather than the second overwriting the
first. -/
theorem render_append_mode (r : Renderer) (tfs : TplSource) (vals1 vals2 : Values)
    (inames1 inames2 : List String) (oname : String) (st : St)
    (ds1 ds2 : List (String × Tpl)) (t1 t2 : String)
    (hdash : oname ≠ "-") (hblank : oname ≠ "")
    (hp1 : parseFiles tfs inames1 = Except.ok ds1)
    (he1 : templateExecute (renderUnitName inames1) r.StopOnError ds1 vals1 = Except.ok t1)
    (hp2 : parseFiles tfs inames2 = Except.ok ds2)
    (he2 : templateExecute (renderUnitName inames2) r.StopOnError ds2 vals2 = Except.ok t2) :
    (render r tfs vals1 inames1 oname st).1 = none
  ∧ lookupVal (render r tfs vals1 inames1 oname st).2.files oname =
      some ((lookupVal st.files oname).getD "" ++ t1)
  ∧ (render r tfs vals1 inames1 oname st).2.dirsMade =
      st.dirsMade ++ (if strContains oname "/" then [dirPath oname] else [])
  ∧ (render r tfs vals2 inames2 oname (render r tfs vals1 inames1 oname st).2).1 = none
  ∧ lookupVal (render r tfs vals2 inames2 oname
        (render r tfs vals1 inames1 oname st).2).2.files oname =
      some ((lookupVal st.files oname).getD "" ++ t1 ++ t2) := by
  have r1 := render_ok r tfs vals1 inames1 oname st ds1 t1 hdash hblank hp1 he1
  have hl1 : lookupVal (render r tfs vals1 inames1 oname st).2.files oname =
      some ((lookupVal st.files oname).getD "" ++ t1) := by
    rw [r1]
    dsimp only
    rw [lookupVal_updFiles, lookupVal_opened]
    rfl
  have r2 := render_ok r tfs vals2 inames2 oname (render r tfs vals1 inames1 oname st).2
      ds2 t2 hdash hblank hp2 he2
  have hl2 : lookupVal (render r tfs vals2 inames2 oname
        (render r tfs vals1 inames1 oname st).2).2.files oname =
      some ((lookupVal st.files oname).getD "" ++ t1 ++ t2) := by
    rw [r2]
    dsimp only
    rw [lookupVal_updFiles, lookupVal_opened, hl1]
    rfl
  refine ⟨by rw [r1], hl1, by rw [r1], by rw [r2], hl2⟩

/-- Witness for C7: two renders of the file `t` into `o.txt` concatenate. -/
theorem render_append_mode_w :
    (render (Renderer.mk [] [] false) tfsHi [] ["t"] "o.txt" St.init).1 = none ∧
    lookupVal (render (Renderer.mk [] [] false) tfsHi [] ["t"] "o.txt" St.init).2.files
      "o.txt" = some "hi" ∧
    lookupVal (render (Renderer.mk [] [] false) tfsHi [] ["t"] "o.txt"
        (render (Renderer.mk [] [] false) tfsHi [] ["t"] "o.txt" St.init).2).2.files
      "o.txt" = some "hihi" :=
  ⟨(render_append_mode (Renderer.mk [] [] false) tfsHi [] [] ["t"] ["t"] "o.txt" St.init
      [("t", [Node.text "hi"])] [("t", [Node.text "hi"])] "hi" "hi"
      (by decide) (by decide) rfl rfl rfl rfl).1,
   (render_append_mode (Renderer.mk [] [] false) tfsHi [] [] ["t"] ["t"] "o.txt" St.init
      [("t", [Node.text "hi"])] [("t", [Node.text "hi"])] "hi" "hi"
      (by decide) (by decide) rfl rfl rfl rfl).2.1,
   (render_append_mode (Renderer.mk [] [] false) tfsHi [] [] ["t"] ["t"] "o.txt" St.init
      [("t", [Node.text "hi"])] [("t", [Node.text "hi"])] "hi" "hi"
      (by decide) (by decide) rfl rfl rfl rfl).2.2.2.2⟩

/-- C8 (amended): every template parse error returned by `render` is
wrapped in a descriptive error carrying the joined template path list of
the render unit; template execution errors, by contrast, are returned to
the caller exactly as produced by the template engine (whose message names
the failing template, not the joined path list). -/
theorem render_error_context (r : Renderer) (tfs : TplSource) (vals : Values)
    (inames : List String) (oname : String) (st : St) (hblank : oname ≠ "") :
    (∀ e, parseFiles tfs inames = Except.error e →
      (render r tfs vals inames oname st).1 =
        some ("Cannot parse templates [" ++ (joinComma inames ++ ("]: " ++ e)))
      ∧ strContains ("Cannot parse templates [" ++ (joinComma inames ++ ("]: " ++ e)))
          (joinComma inames) = true)
  ∧ (∀ ds e, parseFiles tfs inames = Except.ok ds →
      templateExecute (renderUnitName inames) r.StopOnError ds vals = Except.error e →
      (render r tfs vals inames oname st).1 = some e) := by
  constructor
  · intro e hp
    constructor
    · simp [render, hblank, hp]
    · rw [← strAppend_assoc]
      exact strContains_sandwich _ _ _
  · intro ds e hp he
    simp [render, hblank, hp, he]

/-- Counterexample for C8 as stated: a strict-mode execution error on the
render unit `lib/a.tpl, b.tpl` is returned verbatim and names only the
template `b.tpl`; it contains neither the source path `lib/a.tpl` nor the
joined template path list. -/
theorem exec_error_lacks_path_list :
    (render (Renderer.mk [] [] true)
        (fun p =>
          if p = "lib/a.tpl" then some (Except.ok (TemplateFile.mk [] []))
          else if p = "b.tpl" then some (Except.ok (TemplateFile.mk [Node.field "Name"] []))
          else none)
        [] ["lib/a.tpl", "b.tpl"] "out.txt" St.init).1 =
      some "template: b.tpl: map has no entry for key \"Name\"" ∧
    strContains "template: b.tpl: map has no entry for key \"Name\"" "lib/a.tpl" = false ∧
    strContains "template: b.tpl: map has no entry for key \"Name\""
      (joinComma ["lib/a.tpl", "b.tpl"]) = false :=
  ⟨rfl, rfl, rfl⟩

/-- Witness for C8 (amended): a parse error on `lib/a.tpl, broken.tpl` is
wrapped with the joined path list, and the execution error of the
counterexample scenario is passed through unchanged. -/
theorem render_error_context_w :
    (render (Renderer.mk [] [] true)
        (fun p => if p = "lib/a.tpl" then some (Except.ok (TemplateFile.mk [] []))
          else if p = "broken.tpl" then some (Except.error "template: broken.tpl:1: bad")
          else none)
        [] ["lib/a.tpl", "broken.tpl"] "out.txt" St.init).1 =
      some "Cannot parse templates [lib/a.tpl, broken.tpl]: template: broken.tpl:1: bad" ∧
    strContains "Cannot parse templates [lib/a.tpl, broken.tpl]: template: broken.tpl:1: bad"
      (joinComma ["lib/a.tpl", "broken.tpl"]) = true ∧
    (render (Renderer.mk [] [] true)
        (fun p =>
          if p = "lib/a.tpl" then some (Except.ok (TemplateFile.mk [] []))
          else if p = "b.tpl" then some (Except.ok (TemplateFile.mk [Node.field "Name"] []))
          else none)
        [] ["lib/a.tpl", "b.tpl"] "out.txt" St.init).1 =
      some "template: b.tpl: map has no entry for key \"Name\"" :=
  ⟨((render_error_context (Renderer.mk [] [] true)
      (fun p => if p = "lib/a.tpl" then some (Except.ok (TemplateFile.mk [] []))
        else if p = "broken.tpl" then some (Except.error "template: broken.tpl:1: bad")
        else none)
      [] ["lib/a.tpl", "broken.tpl"] "out.txt" St.init (by decide)).1
      "template: broken.tpl:1: bad" rfl).1,
   ((render_error_context (Renderer.mk [] [] true)
      (fun p => if p = "lib/a.tpl" then some (Except.ok (TemplateFile.mk [] []))
        else if p = "broken.tpl" then some (Except.error "template: broken.tpl:1: bad")
        else none)
      [] ["lib/a.tpl", "broken.tpl"] "out.txt" St.init (by decide)).1
      "template: broken.tpl:1: bad" rfl).2,
   (render_error_context (Renderer.mk [] [] true)
      (fun p =>
        if p = "lib/a.tpl" then some (Except.ok (TemplateFile.mk [] []))
        else if p = "b.tpl" then some (Except.ok (TemplateFile.mk [Node.field "Name"] []))
        else none)
      [] ["lib/a.tpl", "b.tpl"] "out.txt" St.init (by decide)).2
      [("a.tpl", []), ("b.tpl", [Node.field "Name"])]
      "template: b.tpl: map has no entry for key \"Name\"" rfl rfl⟩

/-- C9: `getOutputPath` never returns the empty string for any base and
filename, and the blank-output-name branch of `render` fires only for a
blank output name; hence when `render` is reached through `Execute`, whose
output names come from `getOutputPath`, that error branch is unreachable. -/
theorem getOutputPath_never_empty (probe : String → Bool) (base fn oname : String)
    (r : Renderer) (tfs : TplSource) (vals : Values) (inames : List String) (st : St) :
    getOutputPath probe base fn ≠ ""
  ∧ ((render r tfs vals inames oname st).1 = some "Output name cannot be blank" →
      oname = "")
  ∧ (render r tfs vals inames (getOutputPath probe base fn) st).1 ≠
      some "Output name cannot be blank" := by
  have hne : getOutputPath probe base fn ≠ "" := by
    simp only [getOutputPath]
    by_cases h1 : base = "" ∨ base = "-"
    · rw [if_pos h1]; decide
    · rw [if_neg h1]
      have hb : base ≠ "" := fun hh => h1 (Or.inl hh)
      by_cases h2 : hasSuffix base "/" = true
      · rw [if_pos h2]; exact joinPath_ne_empty _ _ hb
      · rw [if_neg h2]
        by_cases h3 : probe base = true
        · rw [if_pos h3]; exact joinPath_ne_empty _ _ hb
        · rw [if_neg h3]; exact hb
  exact ⟨hne, fun h => render_blank_only r tfs vals inames oname st h,
    fun h => hne (render_blank_only r tfs vals inames _ st h)⟩

/-- Witness for C9: a concrete probe, base, and filename, plus the blank
branch firing exactly at the blank name. -/
theorem getOutputPath_never_empty_w :
    getOutputPath (fun _ => false) "o.txt" "a.tpl" ≠ "" ∧
    ("" : String) = "" ∧
    (render (Renderer.mk [] [] true) (fun _ => none) [] []
        (getOutputPath (fun _ => false) "o.txt" "a.tpl") St.init).1 ≠
      some "Output name cannot be blank" :=
  ⟨(getOutputPath_never_empty (fun _ => false) "o.txt" "a.tpl" ""
      (Renderer.mk [] [] true) (fun _ => none) [] [] St.init).1,
   (getOutputPath_never_empty (fun _ => false) "o.txt" "a.tpl" ""
      (Renderer.mk [] [] true) (fun _ => none) [] [] St.init).2.1 rfl,
   (getOutputPath_never_empty (fun _ => false) "o.txt" "a.tpl" ""
      (Renderer.mk [] [] true) (fun _ => none) [] [] St.init).2.2⟩
